import Mathlib

/-!
Shallow embedding of the test host-bridge server
(scripts/test-hostbridge-server.ts): the generic mock dispatcher and the
diff-session subsystem (openDiff, applyEdits, saveDocument, closeDiff),
together with proofs of the specified properties.

Modelling conventions:
- JS strings that carry file text are modelled as lists of characters, so
  that the split-on-newline / join-with-newline pair is Mathlib's
  List.splitOn / List.intercalate, which match the semantics of
  JavaScript's split and join exactly (including the empty-string and
  trailing-separator cases).
- The file system is a partial map from path to file text; a missing or
  unreadable file is the none case (the source catches read errors and
  falls back to empty content).
- JS field accesses through optional chaining are Option values; the
  falsy-coalescing operator x paired with a string default is jsOr, and
  the nullish operator for numbers is Option.getD.
- Array.prototype.splice index clamping follows the ECMAScript
  specification: a negative start counts from the end before clamping at
  zero, a start past the end clamps to the length, and the delete count
  is clamped into the interval from zero to the remaining length.
-/

namespace HostBridge

/-- File text, as the character sequence of a JS string. -/
abbrev FileText := List Char

/-- One line of content, an element of the session's content array. -/
abbrev ContentLine := List Char

/-- Splitting on the newline character, as in the source's
calls of split applied to a newline separator. -/
def splitLines (t : FileText) : List ContentLine := t.splitOn '\n'

/-- Joining with the newline character, as in the source's
call of join applied to a newline separator in saveDocument. -/
def joinLines (ls : List ContentLine) : FileText := List.intercalate ['\n'] ls

/-- JS truthiness-based defaulting for string-or-undefined values:
models expressions of the form x logical-or d where x is an optional
string field. Both a missing value and the empty string are falsy. -/
def jsOr (o : Option String) (d : String) : String :=
  match o with
  | none => d
  | some s => if s = "" then d else s

/-- JS truthiness-based defaulting for the content field of an edit:
models edit.content logical-or the empty string. A missing field and the
empty string both yield the empty string. -/
def jsOrText (o : Option FileText) : FileText := o.getD []

/-- Node path.isAbsolute on a POSIX platform: nonempty and starting with
a slash. -/
def isAbsolute (p : String) : Bool :=
  match p.data with
  | [] => false
  | c :: _ => c = '/'

/-- Node path.join for two segments, modulo path-segment normalization
(the harness inputs contain no dot or dot-dot segments). -/
def pathJoin (a b : String) : String :=
  if a = "" then (if b = "" then "." else b)
  else if b = "" then a
  else a ++ "/" ++ b

/-- Effective start index of Array.prototype.splice per the ECMAScript
specification: a negative start is taken relative to the end and clamped
at zero; otherwise start is clamped at the length. -/
def jsSpliceStart (len : Nat) (start : Int) : Nat :=
  if start < 0 then ((len : Int) + start).toNat else (min start (len : Int)).toNat

/-- Effective delete count of Array.prototype.splice per the ECMAScript
specification, clamped between zero and the length remaining after the
effective start. -/
def jsSpliceCount (len actualStart : Nat) (deleteCount : Int) : Nat :=
  (min (max deleteCount 0) ((len : Int) - (actualStart : Int))).toNat

/-- Array.prototype.splice restricted to its mutation effect: replace the
clamped range by the inserted items. -/
def jsSplice (l : List ContentLine) (start deleteCount : Int)
    (items : List ContentLine) : List ContentLine :=
  l.take (jsSpliceStart l.length start)
    ++ items
    ++ l.drop (jsSpliceStart l.length start
        + jsSpliceCount l.length (jsSpliceStart l.length start) deleteCount)

/-- One edit of an applyEdits request; every field may be absent, exactly
as the handler reads them through optional accesses. -/
structure Edit where
  start_line : Option Int := none
  end_line : Option Int := none
  content : Option FileText := none
deriving DecidableEq

/-- The startLine binding of the applyEdits loop: edit.start_line with
nullish default zero. -/
def editStart (e : Edit) : Int := e.start_line.getD 0

/-- The endLine binding of the applyEdits loop: edit.end_line with
nullish default startLine. -/
def editEnd (e : Edit) : Int := e.end_line.getD (editStart e)

/-- The newLines binding of the applyEdits loop: the content field,
defaulted to the empty string, split on newlines. -/
def editLines (e : Edit) : List ContentLine := splitLines (jsOrText e.content)

/-- The body of the applyEdits loop: splice out the inclusive line range
from startLine to endLine and splice in the new lines. -/
def applyOneEdit (c : List ContentLine) (e : Edit) : List ContentLine :=
  jsSplice c (editStart e) (editEnd e - editStart e + 1) (editLines e)

/-- The DiffSession record of the source. -/
structure DiffSession where
  originalPath : String
  content : List ContentLine
  encoding : String
deriving DecidableEq

/-- The module-level mutable state: the diffSessions map (as an
association list with the most recent binding first, which is faithful
to JS Map lookup) and the diffCounter. -/
structure ServerState where
  diffSessions : List (String × DiffSession)
  diffCounter : Nat
deriving DecidableEq

/-- The state at process start: empty session map, counter zero. -/
def initState : ServerState := ⟨[], 0⟩

/-- The keys currently present in the session map. -/
def sessionKeys (st : ServerState) : List String := st.diffSessions.map Prod.fst

/-- The file system seen by the server: path to file text; none models a
file that does not exist or cannot be read. -/
def FileSystem := String → Option FileText

/-- Writing a file (saveDocument creates missing directories first, so a
write in this model always succeeds). -/
def writeFile (fs : FileSystem) (p : String) (t : FileText) : FileSystem :=
  fun q => if q = p then some t else fs q

/-- Process environment of the server: the TEST_HOSTBRIDGE_WORKSPACE_DIR
variable, the working directory, the process id and the host name. -/
structure Env where
  workspaceEnv : Option String
  cwd : String
  pid : Nat
  hostname : String

/-- Decimal rendering of a natural number, as produced by a JS template
literal interpolating a non-negative integer. The first argument is
recursion fuel, always called with at least the number itself. -/
def natReprAux : Nat → Nat → List Char
  | 0, _ => []
  | fuel + 1, n =>
      if n = 0 then [] else natReprAux fuel (n / 10) ++ [Nat.digitChar (n % 10)]

/-- Decimal string of a natural number, as a JS template literal renders
it (zero renders as the single digit zero). -/
def natStr (n : Nat) : String := ⟨if n = 0 then ['0'] else natReprAux n n⟩

/-- The session identifier built by openDiff from the process id and the
incremented counter. -/
def mkDiffId (pid c : Nat) : String :=
  "diff_" ++ natStr pid ++ "_" ++ natStr c

/-- The workspaceDir binding of openDiff: the workspace environment
variable, falling back to the current working directory. -/
def openWorkspaceDir (env : Env) : String := jsOr env.workspaceEnv env.cwd

/-- The fullPath binding of openDiff: the request path (defaulted to the
empty string), made absolute against the workspace directory when it is
not already absolute. -/
def openFullPath (env : Env) (reqPath : Option String) : String :=
  if isAbsolute (jsOr reqPath "") then jsOr reqPath ""
  else pathJoin (openWorkspaceDir env) (jsOr reqPath "")

/-- The content binding of openDiff: the target file's text split on
newlines when the file exists and is readable, else the empty sequence
(the source catches the read error and keeps the empty array). -/
def openContent (fs : FileSystem) (fullPath : String) : List ContentLine :=
  match fs fullPath with
  | some t => splitLines t
  | none => []

/-- Responses produced by the mock handlers, one constructor per response
shape occurring in the source; empty is the default empty object. -/
inductive Response where
  | empty
  | pathsR (paths : List String)
  | valueR (value : String)
  | telemetryR (isEnabled : Nat)
  | htmlR (html : String)
  | textDocumentR (document_path : String) (view_column : Nat) (is_active : Bool)
  | diffOpened (diff_id : String)
  | documentTextR (content : FileText)
  | diagnosticsR
deriving DecidableEq

/-- What a handler does with the call: reply through the callback with no
error (the source never passes a non-null error), or end the stream
immediately for the streaming method. -/
inductive CallOutcome where
  | reply (r : Response)
  | endStream
deriving DecidableEq

/-- A request as the diff and window handlers read it: optional path,
optional diff_id, optional edits. -/
structure Request where
  path : Option String := none
  diff_id : Option String := none
  edits : Option (List Edit) := none

/-- The openDiff handler: allocate the next counter value and id, read
the file (or start empty), store the session, reply with the id. -/
def openDiffOp (env : Env) (fs : FileSystem) (st : ServerState)
    (reqPath : Option String) : ServerState × Response :=
  ({ diffSessions :=
       (mkDiffId env.pid (st.diffCounter + 1),
        { originalPath := openFullPath env reqPath,
          content := openContent fs (openFullPath env reqPath),
          encoding := "utf8" }) :: st.diffSessions,
     diffCounter := st.diffCounter + 1 },
   .diffOpened (mkDiffId env.pid (st.diffCounter + 1)))

/-- Replace the value stored under a key (the in-place mutation of the
session object found by the map lookup). -/
def setSession (l : List (String × DiffSession)) (i : String)
    (s : DiffSession) : List (String × DiffSession) :=
  l.map fun p => if p.1 = i then (i, s) else p

/-- The applyEdits handler: look the session up; when absent, reply empty
without touching anything; when present, fold the edits in order over the
current content and store the result, then reply empty. -/
def applyEditsOp (st : ServerState) (diffId : Option String)
    (reqEdits : Option (List Edit)) : ServerState × Response :=
  match diffId with
  | none => (st, .empty)
  | some i =>
    match st.diffSessions.lookup i with
    | none => (st, .empty)
    | some s =>
      ({ st with
         diffSessions := setSession st.diffSessions i
           { s with content := (reqEdits.getD []).foldl applyOneEdit s.content } },
       .empty)

/-- The saveDocument handler: look the session up; when absent, reply
empty; when present, join the content with newlines and write it to the
session's original path, then reply empty. -/
def saveDocumentOp (fs : FileSystem) (st : ServerState)
    (diffId : Option String) : FileSystem × ServerState × Response :=
  match diffId with
  | none => (fs, st, .empty)
  | some i =>
    match st.diffSessions.lookup i with
    | none => (fs, st, .empty)
    | some s => (writeFile fs s.originalPath (joinLines s.content), st, .empty)

/-- The closeDiff handler: delete the binding if present (deletion of an
absent key changes nothing), always reply empty. -/
def closeDiffOp (st : ServerState) (diffId : Option String) :
    ServerState × Response :=
  match diffId with
  | none => (st, .empty)
  | some i =>
    ({ st with diffSessions := st.diffSessions.filter (fun p => p.1 != i) },
     .empty)

/-- The response of the getWorkspacePaths handler: one path, the
workspace environment variable defaulted to /test-workspace. -/
def getWorkspacePathsList (env : Env) : List String :=
  [jsOr env.workspaceEnv "/test-workspace"]

/-- The proxy handler: the switch over the method name, with the default
branch replying an empty object for every unrecognized method. The
source never passes an error to the callback, which the CallOutcome type
reflects. -/
def dispatch (env : Env) (fs : FileSystem) (st : ServerState)
    (method : String) (req : Option Request) :
    CallOutcome × FileSystem × ServerState :=
  if method = "getWorkspacePaths" then
    (.reply (.pathsR (getWorkspacePathsList env)), fs, st)
  else if method = "getMachineId" then
    (.reply (.valueR ("fake-machine-id-" ++ env.hostname)), fs, st)
  else if method = "getTelemetrySettings" then
    (.reply (.telemetryR 2), fs, st)
  else if method = "clipboardReadText" then
    (.reply (.valueR ""), fs, st)
  else if method = "getWebviewHtml" then
    (.reply (.htmlR "<html><body>Fake Webview</body></html>"), fs, st)
  else if method = "showTextDocument" then
    (.reply (.textDocumentR (jsOr (req.bind Request.path) "") 1 true), fs, st)
  else if method = "openDiff" then
    (.reply (openDiffOp env fs st (req.bind Request.path)).2, fs,
     (openDiffOp env fs st (req.bind Request.path)).1)
  else if method = "getDocumentText" then
    (.reply (.documentTextR []), fs, st)
  else if method = "getOpenTabs" ∨ method = "getVisibleTabs"
      ∨ method = "showOpenDialogue" then
    (.reply (.pathsR []), fs, st)
  else if method = "getDiagnostics" then
    (.reply .diagnosticsR, fs, st)
  else if method = "applyEdits" then
    (.reply (applyEditsOp st (req.bind Request.diff_id) (req.bind Request.edits)).2,
     fs, (applyEditsOp st (req.bind Request.diff_id) (req.bind Request.edits)).1)
  else if method = "saveDocument" then
    (.reply (saveDocumentOp fs st (req.bind Request.diff_id)).2.2,
     (saveDocumentOp fs st (req.bind Request.diff_id)).1,
     (saveDocumentOp fs st (req.bind Request.diff_id)).2.1)
  else if method = "closeDiff" then
    (.reply (closeDiffOp st (req.bind Request.diff_id)).2, fs,
     (closeDiffOp st (req.bind Request.diff_id)).1)
  else if method = "subscribeToTelemetrySettings" then
    (.endStream, fs, st)
  else
    (.reply .empty, fs, st)

/-- The method names with a specialized case in the switch; every other
method falls through to the default empty reply. -/
def specializedMethods : List String :=
  ["getWorkspacePaths", "getMachineId", "getTelemetrySettings",
   "clipboardReadText", "getWebviewHtml", "showTextDocument", "openDiff",
   "getDocumentText", "getOpenTabs", "getVisibleTabs", "showOpenDialogue",
   "getDiagnostics", "applyEdits", "saveDocument", "closeDiff",
   "subscribeToTelemetrySettings"]

/-- One inbound RPC call: a method name and an optional request. -/
structure Call where
  method : String
  request : Option Request

/-- Running a sequence of calls against the server, threading the file
system and the state and collecting the outcome of every call. -/
def runCalls (env : Env) : List Call → FileSystem → ServerState →
    FileSystem × ServerState × List CallOutcome
  | [], fs, st => (fs, st, [])
  | c :: cs, fs, st =>
    match dispatch env fs st c.method c.request with
    | (out, fs1, st1) =>
      match runCalls env cs fs1 st1 with
      | (fs2, st2, outs) => (fs2, st2, out :: outs)

/-- The session ids handed out by openDiff calls, in call order. -/
def openedIds (outs : List CallOutcome) : List String :=
  outs.filterMap fun o =>
    match o with
    | .reply (.diffOpened i) => some i
    | _ => none

/-- Numeric value of a decimal digit string, used to invert the decimal
rendering. -/
def digitsVal (l : List Char) : Nat :=
  l.foldl (fun a c => a * 10 + (c.toNat - 48)) 0

/-! Concrete fixtures for the witness instances. -/

/-- A sample environment: workspace variable set to /w, process id 5. -/
def envSample : Env := ⟨some "/w", "/", 5, "host"⟩

/-- The empty file system. -/
def fsEmpty : FileSystem := fun _ => none

/-- A file system holding one two-line file under the sample workspace. -/
def fsSample : FileSystem :=
  fun q => if q = "/w/a.txt" then some ['x', '\n', 'y'] else none

/-- A server state holding one session with three lines of content. -/
def stSample : ServerState :=
  ⟨[("d1", ⟨"/w/f", [['a'], ['b'], ['c']], "utf8"⟩)], 1⟩

/-! Helper lemmas about the splice clamping. -/

theorem jsSpliceStart_le (len : Nat) (start : Int) :
    jsSpliceStart len start ≤ len := by
  unfold jsSpliceStart
  split <;> omega

theorem jsSpliceCount_add_le (len a : Nat) (d : Int) (h : a ≤ len) :
    a + jsSpliceCount len a d ≤ len := by
  unfold jsSpliceCount
  omega

theorem jsSplice_in_range (l : List ContentLine) (a b : Int)
    (items : List ContentLine) (h0 : 0 ≤ a) (hab : a ≤ b)
    (hb : b < (l.length : Int)) :
    jsSplice l a (b - a + 1) items
      = l.take a.toNat ++ items ++ l.drop (b.toNat + 1) := by
  have ha : jsSpliceStart l.length a = a.toNat := by
    unfold jsSpliceStart
    split <;> omega
  have hd : jsSpliceCount l.length a.toNat (b - a + 1)
      = b.toNat + 1 - a.toNat := by
    unfold jsSpliceCount
    omega
  unfold jsSplice
  rw [ha, hd]
  have h : a.toNat + (b.toNat + 1 - a.toNat) = b.toNat + 1 := by omega
  rw [h]

theorem applyOneEdit_in_range (c : List ContentLine) (a b : Int)
    (t : Option FileText) (h0 : 0 ≤ a) (hab : a ≤ b)
    (hb : b < (c.length : Int)) :
    applyOneEdit c ⟨some a, some b, t⟩
      = c.take a.toNat ++ splitLines (jsOrText t) ++ c.drop (b.toNat + 1) := by
  unfold applyOneEdit editStart editEnd editLines
  simp only [Option.getD_some]
  exact jsSplice_in_range c a b _ h0 hab hb

theorem splitLines_ne_nil (t : FileText) : splitLines t ≠ [] := by
  unfold splitLines List.splitOn
  exact List.splitOnP_ne_nil _ t

/-! Helper lemmas about the session table. -/

theorem lookup_setSession (l : List (String × DiffSession)) (i : String)
    (s s0 : DiffSession) (h : l.lookup i = some s0) :
    (setSession l i s).lookup i = some s := by
  induction l with
  | nil => simp at h
  | cons p l ih =>
    rcases p with ⟨k, v⟩
    by_cases hk : k = i
    · subst hk
      simp [setSession]
    · have hb : (i == k) = false := beq_eq_false_iff_ne.mpr (Ne.symm hk)
      rw [List.lookup_cons, hb] at h
      simp only [setSession, List.map_cons]
      rw [if_neg (by simpa using hk)]
      rw [List.lookup_cons, hb]
      exact ih h

theorem keys_setSession (l : List (String × DiffSession)) (i : String)
    (s : DiffSession) : (setSession l i s).map Prod.fst = l.map Prod.fst := by
  unfold setSession
  rw [List.map_map]
  apply List.map_congr_left
  intro p _
  by_cases hp : p.1 = i <;> simp [hp]

theorem filter_of_lookup_none (l : List (String × DiffSession)) (i : String)
    (h : l.lookup i = none) : l.filter (fun p => p.1 != i) = l := by
  induction l with
  | nil => rfl
  | cons p l ih =>
    rcases p with ⟨k, v⟩
    rw [List.lookup_cons] at h
    by_cases hk : k = i
    · subst hk
      simp at h
    · have hb : (i == k) = false := beq_eq_false_iff_ne.mpr (Ne.symm hk)
      rw [hb] at h
      have hf : ((k, v).1 != i) = true := by simp [hk]
      simp [List.filter_cons, hf, ih h]

/-! Helper lemmas about the decimal rendering of session counters. -/

theorem natReprAux_zero (fuel : Nat) : natReprAux fuel 0 = [] := by
  cases fuel <;> rfl

theorem digitChar_toNat (d : Nat) (h : d < 10) :
    (Nat.digitChar d).toNat - 48 = d := by
  interval_cases d <;> rfl

theorem natReprAux_val (fuel : Nat) : ∀ n acc, 0 < n → n ≤ fuel →
    (natReprAux fuel n).foldl (fun a c => a * 10 + (c.toNat - 48)) acc
      = acc * 10 ^ (natReprAux fuel n).length + n := by
  induction fuel with
  | zero =>
    intro n acc h0 hf
    omega
  | succ fuel ih =>
    intro n acc h0 hf
    simp only [natReprAux]
    rw [if_neg (by omega)]
    by_cases hq : n / 10 = 0
    · rw [hq, natReprAux_zero]
      simp only [List.nil_append, List.foldl_cons, List.foldl_nil,
        List.length_cons, List.length_nil]
      rw [digitChar_toNat (n % 10) (Nat.mod_lt n (by norm_num))]
      have h10 : n % 10 = n := Nat.mod_eq_of_lt (by omega)
      rw [h10]
      omega
    · have hlt := Nat.div_lt_self h0 (by norm_num : 1 < 10)
      have ihv := ih (n / 10) acc (Nat.pos_of_ne_zero hq) (by omega)
      rw [List.foldl_append, ihv]
      simp only [List.foldl_cons, List.foldl_nil, List.length_append,
        List.length_cons, List.length_nil, Nat.zero_add]
      rw [digitChar_toNat (n % 10) (Nat.mod_lt n (by norm_num))]
      rw [pow_succ, ← mul_assoc]
      generalize acc * 10 ^ (natReprAux fuel (n / 10)).length = A
      omega

theorem digitsVal_natStr (n : Nat) : digitsVal (natStr n).data = n := by
  unfold natStr digitsVal
  by_cases h : n = 0
  · subst h
    decide
  · rw [if_neg h]
    have hv := natReprAux_val n n 0 (Nat.pos_of_ne_zero h) le_rfl
    simpa using hv

theorem natStr_injective (m n : Nat) (h : natStr m = natStr n) : m = n := by
  have hv := congrArg (fun s => digitsVal s.data) h
  simpa only [digitsVal_natStr] using hv

theorem mkDiffId_inj (pid c1 c2 : Nat) (h : mkDiffId pid c1 = mkDiffId pid c2) :
    c1 = c2 := by
  unfold mkDiffId at h
  have hd := congrArg String.data h
  simp only [String.data_append] at hd
  have hlist : (natStr c1).data = (natStr c2).data :=
    List.append_cancel_left hd
  exact natStr_injective c1 c2 (by ext1; exact hlist)

theorem mkDiffId_ne (pid c1 c2 : Nat) (h : c1 ≠ c2) :
    mkDiffId pid c1 ≠ mkDiffId pid c2 :=
  fun he => h (mkDiffId_inj pid c1 c2 he)

/-! Helper lemmas about the handlers. -/

theorem applyEditsOp_resp (st : ServerState) (i : Option String)
    (e : Option (List Edit)) : (applyEditsOp st i e).2 = .empty := by
  unfold applyEditsOp
  rcases i with _ | i
  · rfl
  · simp only
    split <;> rfl

theorem applyEditsOp_found (st : ServerState) (i : String) (s : DiffSession)
    (e : Option (List Edit)) (h : st.diffSessions.lookup i = some s) :
    applyEditsOp st (some i) e
      = ({ st with diffSessions := setSession st.diffSessions i { s with content := (e.getD []).foldl applyOneEdit s.content } }, .empty) := by
  simp only [applyEditsOp, h]

theorem saveDocumentOp_found (fs : FileSystem) (st : ServerState) (i : String)
    (s : DiffSession) (h : st.diffSessions.lookup i = some s) :
    saveDocumentOp fs st (some i)
      = (writeFile fs s.originalPath (joinLines s.content), st, .empty) := by
  simp only [saveDocumentOp, h]

theorem applyEditsOp_counter (st : ServerState) (i : Option String)
    (e : Option (List Edit)) :
    (applyEditsOp st i e).1.diffCounter = st.diffCounter := by
  unfold applyEditsOp
  rcases i with _ | i
  · rfl
  · simp only
    split <;> rfl

theorem applyEditsOp_keys (st : ServerState) (i : Option String)
    (e : Option (List Edit)) :
    (applyEditsOp st i e).1.diffSessions.map Prod.fst
      = st.diffSessions.map Prod.fst := by
  unfold applyEditsOp
  rcases i with _ | i
  · rfl
  · simp only
    split
    · rfl
    · exact keys_setSession st.diffSessions i _

theorem saveDocumentOp_state (fs : FileSystem) (st : ServerState)
    (i : Option String) : (saveDocumentOp fs st i).2.1 = st := by
  unfold saveDocumentOp
  rcases i with _ | i
  · rfl
  · simp only
    split <;> rfl

theorem saveDocumentOp_resp (fs : FileSystem) (st : ServerState)
    (i : Option String) : (saveDocumentOp fs st i).2.2 = .empty := by
  unfold saveDocumentOp
  rcases i with _ | i
  · rfl
  · simp only
    split <;> rfl

theorem closeDiffOp_counter (st : ServerState) (i : Option String) :
    (closeDiffOp st i).1.diffCounter = st.diffCounter := by
  rcases i with _ | i <;> rfl

theorem closeDiffOp_keys (st : ServerState) (i : Option String) :
    ∀ k, k ∈ (closeDiffOp st i).1.diffSessions.map Prod.fst →
      k ∈ st.diffSessions.map Prod.fst := by
  rcases i with _ | i
  · exact fun k hk => hk
  · intro k hk
    simp only [closeDiffOp, List.mem_map] at hk ⊢
    obtain ⟨p, hp, hpk⟩ := hk
    exact ⟨p, List.mem_of_mem_filter hp, hpk⟩

theorem closeDiffOp_resp (st : ServerState) (i : Option String) :
    (closeDiffOp st i).2 = .empty := by
  rcases i with _ | i <;> rfl

/-- The default branch of the switch: a method with no specialized case
gets the empty reply and neither the file system nor the state change. -/
theorem dispatch_default (env : Env) (fs : FileSystem) (st : ServerState)
    (method : String) (req : Option Request)
    (h : method ∉ specializedMethods) :
    dispatch env fs st method req = (.reply .empty, fs, st) := by
  simp only [specializedMethods, List.mem_cons, List.not_mem_nil, or_false,
    not_or] at h
  obtain ⟨h1, h2, h3, h4, h5, h6, h7, h8, h9, h10, h11, h12, h13, h14, h15, h16⟩ := h
  unfold dispatch
  rw [if_neg h1, if_neg h2, if_neg h3, if_neg h4, if_neg h5, if_neg h6,
    if_neg h7, if_neg h8,
    if_neg (show ¬(method = "getOpenTabs" ∨ method = "getVisibleTabs"
      ∨ method = "showOpenDialogue") by tauto),
    if_neg h12, if_neg h13, if_neg h14, if_neg h15, if_neg h16]

/-- Any call other than openDiff never replies with a session id, keeps
the counter, and introduces no new key into the table. -/
theorem dispatch_not_open (env : Env) (fs : FileSystem) (st : ServerState)
    (method : String) (req : Option Request) (hm : ¬ method = "openDiff") :
    (∀ i, (dispatch env fs st method req).1 ≠ .reply (.diffOpened i))
    ∧ (dispatch env fs st method req).2.2.diffCounter = st.diffCounter
    ∧ (∀ k, k ∈ (dispatch env fs st method req).2.2.diffSessions.map Prod.fst →
        k ∈ st.diffSessions.map Prod.fst) := by
  by_cases h1 : method = "getWorkspacePaths"
  · subst h1
    exact ⟨fun i he => Response.noConfusion (CallOutcome.reply.inj he), rfl,
      fun k hk => hk⟩
  by_cases h2 : method = "getMachineId"
  · subst h2
    exact ⟨fun i he => Response.noConfusion (CallOutcome.reply.inj he), rfl,
      fun k hk => hk⟩
  by_cases h3 : method = "getTelemetrySettings"
  · subst h3
    exact ⟨fun i he => Response.noConfusion (CallOutcome.reply.inj he), rfl,
      fun k hk => hk⟩
  by_cases h4 : method = "clipboardReadText"
  · subst h4
    exact ⟨fun i he => Response.noConfusion (CallOutcome.reply.inj he), rfl,
      fun k hk => hk⟩
  by_cases h5 : method = "getWebviewHtml"
  · subst h5
    exact ⟨fun i he => Response.noConfusion (CallOutcome.reply.inj he), rfl,
      fun k hk => hk⟩
  by_cases h6 : method = "showTextDocument"
  · subst h6
    exact ⟨fun i he => Response.noConfusion (CallOutcome.reply.inj he), rfl,
      fun k hk => hk⟩
  by_cases h8 : method = "getDocumentText"
  · subst h8
    exact ⟨fun i he => Response.noConfusion (CallOutcome.reply.inj he), rfl,
      fun k hk => hk⟩
  by_cases h9 : method = "getOpenTabs"
  · subst h9
    exact ⟨fun i he => Response.noConfusion (CallOutcome.reply.inj he), rfl,
      fun k hk => hk⟩
  by_cases h10 : method = "getVisibleTabs"
  · subst h10
    exact ⟨fun i he => Response.noConfusion (CallOutcome.reply.inj he), rfl,
      fun k hk => hk⟩
  by_cases h11 : method = "showOpenDialogue"
  · subst h11
    exact ⟨fun i he => Response.noConfusion (CallOutcome.reply.inj he), rfl,
      fun k hk => hk⟩
  by_cases h12 : method = "getDiagnostics"
  · subst h12
    exact ⟨fun i he => Response.noConfusion (CallOutcome.reply.inj he), rfl,
      fun k hk => hk⟩
  by_cases h13 : method = "applyEdits"
  · subst h13
    refine ⟨?_, applyEditsOp_counter st _ _, ?_⟩
    · intro i he
      have hav := applyEditsOp_resp st (req.bind Request.diff_id)
        (req.bind Request.edits)
      have he2 : CallOutcome.reply (applyEditsOp st (req.bind Request.diff_id)
          (req.bind Request.edits)).2 = CallOutcome.reply (.diffOpened i) := he
      rw [hav] at he2
      exact Response.noConfusion (CallOutcome.reply.inj he2)
    · intro k hk
      have hk2 : k ∈ (applyEditsOp st (req.bind Request.diff_id)
          (req.bind Request.edits)).1.diffSessions.map Prod.fst := hk
      rw [applyEditsOp_keys] at hk2
      exact hk2
  by_cases h14 : method = "saveDocument"
  · subst h14
    refine ⟨?_, ?_, ?_⟩
    · intro i he
      have hsv := saveDocumentOp_resp fs st (req.bind Request.diff_id)
      have he2 : CallOutcome.reply (saveDocumentOp fs st
          (req.bind Request.diff_id)).2.2 = CallOutcome.reply (.diffOpened i) := he
      rw [hsv] at he2
      exact Response.noConfusion (CallOutcome.reply.inj he2)
    · exact congrArg ServerState.diffCounter
        (saveDocumentOp_state fs st (req.bind Request.diff_id))
    · intro k hk
      have hk2 : k ∈ (saveDocumentOp fs st
          (req.bind Request.diff_id)).2.1.diffSessions.map Prod.fst := hk
      rw [saveDocumentOp_state] at hk2
      exact hk2
  by_cases h15 : method = "closeDiff"
  · subst h15
    refine ⟨?_, closeDiffOp_counter st _, ?_⟩
    · intro i he
      have hcv := closeDiffOp_resp st (req.bind Request.diff_id)
      have he2 : CallOutcome.reply (closeDiffOp st
          (req.bind Request.diff_id)).2 = CallOutcome.reply (.diffOpened i) := he
      rw [hcv] at he2
      exact Response.noConfusion (CallOutcome.reply.inj he2)
    · exact closeDiffOp_keys st (req.bind Request.diff_id)
  by_cases h16 : method = "subscribeToTelemetrySettings"
  · subst h16
    exact ⟨fun i he => CallOutcome.noConfusion he, rfl, fun k hk => hk⟩
  have hnm : method ∉ specializedMethods := by
    intro hmem
    simp only [specializedMethods, List.mem_cons, List.not_mem_nil,
      or_false] at hmem
    tauto
  rw [dispatch_default env fs st method req hnm]
  exact ⟨fun i he => Response.noConfusion (CallOutcome.reply.inj he), rfl,
    fun k hk => hk⟩

/-- Every dispatched call is either an openDiff, which replies with the
id built from the incremented counter and conses that id onto the table,
or any other call, which never replies a session id, preserves the
counter, and adds no key. -/
theorem dispatch_shape (env : Env) (fs : FileSystem) (st : ServerState)
    (method : String) (req : Option Request) :
    (dispatch env fs st method req
        = (.reply (.diffOpened (mkDiffId env.pid (st.diffCounter + 1))), fs,
           (openDiffOp env fs st (req.bind Request.path)).1)
      ∧ (openDiffOp env fs st (req.bind Request.path)).1.diffCounter
          = st.diffCounter + 1
      ∧ (openDiffOp env fs st (req.bind Request.path)).1.diffSessions.map Prod.fst
          = mkDiffId env.pid (st.diffCounter + 1) :: st.diffSessions.map Prod.fst)
    ∨ ((∀ i, (dispatch env fs st method req).1 ≠ .reply (.diffOpened i))
      ∧ (dispatch env fs st method req).2.2.diffCounter = st.diffCounter
      ∧ (∀ k, k ∈ (dispatch env fs st method req).2.2.diffSessions.map Prod.fst →
          k ∈ st.diffSessions.map Prod.fst)) := by
  by_cases hm : method = "openDiff"
  · left
    subst hm
    exact ⟨rfl, rfl, rfl⟩
  · right
    exact dispatch_not_open env fs st method req hm

theorem openedIds_cons_open (i : String) (outs : List CallOutcome) :
    openedIds (CallOutcome.reply (.diffOpened i) :: outs)
      = i :: openedIds outs := rfl

theorem openedIds_cons_other (o : CallOutcome) (outs : List CallOutcome)
    (h : ∀ i, o ≠ .reply (.diffOpened i)) :
    openedIds (o :: outs) = openedIds outs := by
  unfold openedIds
  rw [List.filterMap_cons]
  have hn : (match o with
      | CallOutcome.reply (.diffOpened i) => some i
      | _ => none) = none := by
    rcases o with r | _
    · rcases r with _ | _ | _ | _ | _ | _ | i | _ | _ <;>
        first
        | rfl
        | exact absurd rfl (h i)
    · rfl
  rw [hn]

/-- Invariant of a run: the counter never decreases; every id handed out
by an open during the run uses a counter value strictly above the
starting counter and at most the final one; the handed-out ids are
pairwise distinct; every final table key was a starting key or was
handed out during the run; and well-formed bounded keys stay so. -/
theorem runCalls_inv (env : Env) (calls : List Call) :
    ∀ (fs : FileSystem) (st : ServerState),
    st.diffCounter ≤ (runCalls env calls fs st).2.1.diffCounter
    ∧ (∀ id ∈ openedIds (runCalls env calls fs st).2.2,
        ∃ c, st.diffCounter < c
          ∧ c ≤ (runCalls env calls fs st).2.1.diffCounter
          ∧ id = mkDiffId env.pid c)
    ∧ (openedIds (runCalls env calls fs st).2.2).Nodup
    ∧ (∀ k ∈ (runCalls env calls fs st).2.1.diffSessions.map Prod.fst,
        k ∈ st.diffSessions.map Prod.fst
        ∨ k ∈ openedIds (runCalls env calls fs st).2.2)
    ∧ ((∀ k ∈ st.diffSessions.map Prod.fst,
          ∃ c, 0 < c ∧ c ≤ st.diffCounter ∧ k = mkDiffId env.pid c) →
        (∀ k ∈ (runCalls env calls fs st).2.1.diffSessions.map Prod.fst,
          ∃ c, 0 < c ∧ c ≤ (runCalls env calls fs st).2.1.diffCounter
            ∧ k = mkDiffId env.pid c)) := by
  induction calls with
  | nil =>
    intro fs st
    refine ⟨le_rfl, ?_, ?_, ?_, ?_⟩
    · intro id hid
      simp [runCalls, openedIds] at hid
    · simp [runCalls, openedIds]
    · intro k hk
      exact Or.inl hk
    · intro hgood k hk
      exact hgood k hk
  | cons c cs ih =>
    intro fs st
    rcases hD : dispatch env fs st c.method c.request with ⟨out, fs1, st1⟩
    have hshape := dispatch_shape env fs st c.method c.request
    rw [hD] at hshape
    dsimp only at hshape
    rcases hR : runCalls env cs fs1 st1 with ⟨fs2, st2, outs⟩
    have hrun : runCalls env (c :: cs) fs st = (fs2, st2, out :: outs) := by
      simp only [runCalls, hD, hR]
    rw [hrun]
    dsimp only
    have ihv := ih fs1 st1
    rw [hR] at ihv
    dsimp only at ihv
    obtain ⟨ihCnt, ihIds, ihNodup, ihKeys, ihGood⟩ := ihv
    rcases hshape with ⟨hEq, hCnt, hKeys⟩ | ⟨hNot, hCnt, hKeys⟩
    · -- an openDiff call
      have hout : out = CallOutcome.reply
          (.diffOpened (mkDiffId env.pid (st.diffCounter + 1))) := by
        have := congrArg Prod.fst hEq
        simpa using this
      have hst1 : st1 = (openDiffOp env fs st (c.request.bind Request.path)).1 := by
        have := congrArg (fun x => x.2.2) hEq
        simpa using this
      subst hout
      subst hst1
      rw [hCnt] at ihCnt ihIds ihGood
      rw [hKeys] at ihKeys ihGood
      refine ⟨by omega, ?_, ?_, ?_, ?_⟩
      · rw [openedIds_cons_open]
        intro id hid
        rcases List.mem_cons.mp hid with hid1 | hid2
        · exact ⟨st.diffCounter + 1, by omega, by omega, hid1⟩
        · obtain ⟨c1, hc1, hc2, hc3⟩ := ihIds id hid2
          exact ⟨c1, by omega, hc2, hc3⟩
      · rw [openedIds_cons_open]
        refine List.nodup_cons.mpr ⟨?_, ihNodup⟩
        intro hmem
        obtain ⟨c1, hc1, _, hc3⟩ := ihIds _ hmem
        have := mkDiffId_inj env.pid (st.diffCounter + 1) c1 hc3
        omega
      · intro k hk
        rcases ihKeys k hk with hk1 | hk2
        · rcases List.mem_cons.mp hk1 with hk3 | hk4
          · right
            rw [openedIds_cons_open, hk3]
            exact List.mem_cons_self _ _
          · exact Or.inl hk4
        · right
          rw [openedIds_cons_open]
          exact List.mem_cons_of_mem _ hk2
      · intro hstart
        refine ihGood ?_
        intro k hk
        rcases List.mem_cons.mp hk with hk1 | hk2
        · exact ⟨st.diffCounter + 1, by omega, by omega, hk1⟩
        · obtain ⟨c1, hc1, hc2, hc3⟩ := hstart k hk2
          exact ⟨c1, hc1, by omega, hc3⟩
    · -- any other call
      rw [hCnt] at ihCnt ihIds ihGood
      have hoth := openedIds_cons_other out outs hNot
      refine ⟨by omega, ?_, ?_, ?_, ?_⟩
      · rw [hoth]
        intro id hid
        obtain ⟨c1, hc1, hc2, hc3⟩ := ihIds id hid
        exact ⟨c1, hc1, hc2, hc3⟩
      · rw [hoth]
        exact ihNodup
      · intro k hk
        rcases ihKeys k hk with hk1 | hk2
        · exact Or.inl (hKeys k hk1)
        · right
          rw [hoth]
          exact hk2
      · intro hstart
        refine ihGood ?_
        intro k hk
        obtain ⟨c1, hc1, hc2, hc3⟩ := hstart k (hKeys k hk)
        exact ⟨c1, hc1, hc2, hc3⟩

/-! The specified properties. -/

/-- C1: for an existing session, applyEdits applies the edits strictly in
the given order against the current, already-mutated content (a left fold
of the single-edit step); an in-range edit replaces the inclusive line
range from startLine to endLine by the newText split on newlines; an
absent endLine defaults to startLine; and on content a, b, c the edit
replacing line one by B yields a, B, c. -/
theorem applyEdits_in_order (st : ServerState) (i : String) (s : DiffSession)
    (edits : List Edit) (h : st.diffSessions.lookup i = some s) :
    (applyEditsOp st (some i) (some edits)).2 = .empty
    ∧ (applyEditsOp st (some i) (some edits)).1.diffSessions.lookup i
        = some { s with content := edits.foldl applyOneEdit s.content }
    ∧ (∀ (c : List ContentLine) (a b : Int) (t : Option FileText),
        0 ≤ a → a ≤ b → b < (c.length : Int) →
        applyOneEdit c ⟨some a, some b, t⟩
          = c.take a.toNat ++ splitLines (jsOrText t) ++ c.drop (b.toNat + 1))
    ∧ (∀ (c : List ContentLine) (a : Int) (t : Option FileText),
        applyOneEdit c ⟨some a, none, t⟩ = applyOneEdit c ⟨some a, some a, t⟩)
    ∧ applyOneEdit [['a'], ['b'], ['c']] ⟨some 1, some 1, some ['B']⟩
        = [['a'], ['B'], ['c']] := by
  refine ⟨applyEditsOp_resp st (some i) (some edits), ?_, ?_, ?_, by decide⟩
  · rw [applyEditsOp_found st i s (some edits) h]
    exact lookup_setSession st.diffSessions i _ s h
  · intro c a b t h0 hab hb
    exact applyOneEdit_in_range c a b t h0 hab hb
  · intro c a t
    rfl

/-- Witness for applyEdits_in_order at a concrete state, session and edit
list. -/
theorem applyEdits_in_order_witness :
    (applyEditsOp ⟨[("d1", ⟨"/w/f", [['a'], ['b'], ['c']], "utf8"⟩)], 1⟩
        (some "d1") (some [⟨some 1, some 1, some ['B']⟩])).2 = .empty
    ∧ (applyEditsOp ⟨[("d1", ⟨"/w/f", [['a'], ['b'], ['c']], "utf8"⟩)], 1⟩
        (some "d1") (some [⟨some 1, some 1, some ['B']⟩])).1.diffSessions.lookup "d1"
        = some ⟨"/w/f", [['a'], ['B'], ['c']], "utf8"⟩
    ∧ applyOneEdit [['a'], ['b'], ['c']] ⟨some 1, some 1, some ['B']⟩
        = [['a'], ['B'], ['c']] := by
  have h := applyEdits_in_order ⟨[("d1", ⟨"/w/f", [['a'], ['b'], ['c']], "utf8"⟩)], 1⟩
    "d1" ⟨"/w/f", [['a'], ['b'], ['c']], "utf8"⟩ [⟨some 1, some 1, some ['B']⟩]
    (by decide)
  exact ⟨h.1, by rw [h.2.1]; decide, h.2.2.2.2⟩

/-- C2: for a session id absent from the table, applyEdits and
saveDocument reply with the empty success response and leave the file
system, the table and hence every session's content untouched. -/
theorem unknown_session_noop (fs : FileSystem) (st : ServerState)
    (i : String) (reqEdits : Option (List Edit))
    (h : st.diffSessions.lookup i = none) :
    applyEditsOp st (some i) reqEdits = (st, .empty)
    ∧ saveDocumentOp fs st (some i) = (fs, st, .empty) := by
  constructor
  · simp only [applyEditsOp, h]
  · simp only [saveDocumentOp, h]

/-- Witness for unknown_session_noop on the initial empty table. -/
theorem unknown_session_noop_witness :
    applyEditsOp initState (some "missing")
        (some [⟨some 0, none, some ['X']⟩]) = (initState, .empty)
    ∧ saveDocumentOp (fun _ => none) initState (some "missing")
        = ((fun _ => none), initState, .empty) :=
  unknown_session_noop (fun _ => none) initState "missing"
    (some [⟨some 0, none, some ['X']⟩]) (by decide)

/-- C10: an edit whose newText is the empty string, or whose content
field is absent, replaces the inclusive in-range line range by exactly
one empty line, never by zero lines, so the new length is the old length
minus the range size plus one; indeed no edit ever splices in an empty
line list, since splitting any text on newlines is nonempty. -/
theorem empty_newText_keeps_one_line (c : List ContentLine) (a b : Int)
    (h0 : 0 ≤ a) (hab : a ≤ b) (hb : b < (c.length : Int)) :
    applyOneEdit c ⟨some a, some b, some []⟩
        = c.take a.toNat ++ [[]] ++ c.drop (b.toNat + 1)
    ∧ applyOneEdit c ⟨some a, some b, none⟩
        = c.take a.toNat ++ [[]] ++ c.drop (b.toNat + 1)
    ∧ (applyOneEdit c ⟨some a, some b, some []⟩).length
        = c.length - (b.toNat - a.toNat + 1) + 1
    ∧ ∀ e : Edit, editLines e ≠ [] := by
  have h1 := applyOneEdit_in_range c a b (some []) h0 hab hb
  have h2 := applyOneEdit_in_range c a b none h0 hab hb
  have hsplit : splitLines (jsOrText (some [])) = [[]] := by decide
  have hsplit2 : splitLines (jsOrText none) = [[]] := by decide
  rw [hsplit] at h1
  rw [hsplit2] at h2
  refine ⟨h1, h2, ?_, fun e => splitLines_ne_nil _⟩
  rw [h1]
  simp only [List.length_append, List.length_take, List.length_drop,
    List.length_cons, List.length_nil]
  omega

/-- Witness for empty_newText_keeps_one_line on a three-line content. -/
theorem empty_newText_keeps_one_line_witness :
    applyOneEdit [['a'], ['b'], ['c']] ⟨some 1, some 2, some []⟩
        = [['a'], []]
    ∧ (applyOneEdit [['a'], ['b'], ['c']] ⟨some 1, some 2, some []⟩).length
        = 3 - (2 - 1 + 1) + 1 := by
  have h := empty_newText_keeps_one_line [['a'], ['b'], ['c']] 1 2
    (by decide) (by decide) (by decide)
  refine ⟨?_, ?_⟩
  · rw [h.1]
    decide
  · rw [h.2.2.1]
    decide

/-- C3: openDiff always replies with the id built from the incremented
counter and stores a session under it whose content is empty when the
target file is missing or unreadable, and is the file text split on
newlines when the file is readable. -/
theorem open_reads_file (env : Env) (fs : FileSystem) (st : ServerState)
    (p : Option String) :
    (openDiffOp env fs st p).2
        = .diffOpened (mkDiffId env.pid (st.diffCounter + 1))
    ∧ (openDiffOp env fs st p).1.diffSessions.lookup
          (mkDiffId env.pid (st.diffCounter + 1))
        = some ⟨openFullPath env p, openContent fs (openFullPath env p), "utf8"⟩
    ∧ (fs (openFullPath env p) = none →
        openContent fs (openFullPath env p) = [])
    ∧ (∀ t, fs (openFullPath env p) = some t →
        openContent fs (openFullPath env p) = splitLines t) := by
  refine ⟨rfl, ?_, ?_, ?_⟩
  · simp [openDiffOp]
  · intro h
    simp [openContent, h]
  · intro t ht
    simp [openContent, ht]

/-- Witness for open_reads_file, on a missing file and on an existing
two-line file. -/
theorem open_reads_file_witness :
    openContent fsEmpty (openFullPath envSample (some "a.txt")) = []
    ∧ openContent fsSample (openFullPath envSample (some "a.txt"))
        = splitLines ['x', '\n', 'y']
    ∧ (openDiffOp envSample fsEmpty initState (some "a.txt")).2
        = .diffOpened (mkDiffId 5 1) := by
  have hA := open_reads_file envSample fsEmpty initState (some "a.txt")
  have hB := open_reads_file envSample fsSample initState (some "a.txt")
  exact ⟨hA.2.2.1 (by decide), hB.2.2.2 ['x', '\n', 'y'] (by decide), hA.1⟩

/-- C4: openDiff immediately followed by saveDocument on the returned id,
with no edits in between, rewrites the file with its original text, so
the file system is pointwise unchanged; the save replies empty. -/
theorem open_save_roundtrip (env : Env) (fs : FileSystem) (st : ServerState)
    (p : Option String) (t : FileText) (q : String)
    (h : fs (openFullPath env p) = some t) :
    (saveDocumentOp fs (openDiffOp env fs st p).1
        (some (mkDiffId env.pid (st.diffCounter + 1)))).1 q = fs q
    ∧ (saveDocumentOp fs (openDiffOp env fs st p).1
        (some (mkDiffId env.pid (st.diffCounter + 1)))).2.2 = .empty := by
  have hlook : (openDiffOp env fs st p).1.diffSessions.lookup
      (mkDiffId env.pid (st.diffCounter + 1))
      = some ⟨openFullPath env p, openContent fs (openFullPath env p), "utf8"⟩ := by
    simp [openDiffOp]
  rw [saveDocumentOp_found fs (openDiffOp env fs st p).1
    (mkDiffId env.pid (st.diffCounter + 1)) _ hlook]
  refine ⟨?_, rfl⟩
  have hc : openContent fs (openFullPath env p) = splitLines t := by
    simp [openContent, h]
  have hj : joinLines (splitLines t) = t := by
    unfold joinLines splitLines
    exact List.intercalate_splitOn t '\n'
  show writeFile fs (openFullPath env p)
      (joinLines (openContent fs (openFullPath env p))) q = fs q
  rw [hc, hj]
  unfold writeFile
  split
  · rename_i hq
    rw [hq, h]
  · rfl

/-- Witness for open_save_roundtrip on the sample file system. -/
theorem open_save_roundtrip_witness :
    (saveDocumentOp fsSample (openDiffOp envSample fsSample initState (some "a.txt")).1
        (some (mkDiffId 5 1))).1 "/w/a.txt" = fsSample "/w/a.txt"
    ∧ (saveDocumentOp fsSample (openDiffOp envSample fsSample initState (some "a.txt")).1
        (some (mkDiffId 5 1))).2.2 = .empty := by
  have h := open_save_roundtrip envSample fsSample initState (some "a.txt")
    ['x', '\n', 'y'] "/w/a.txt" (by decide)
  exact ⟨h.1, h.2⟩

/-- C5: closeDiff always replies empty, the second of two closes of the
same id leaves the table exactly as after the first, and closing an id
that is not in the table changes nothing at all. -/
theorem close_idempotent (st : ServerState) (i : String) :
    (closeDiffOp st (some i)).2 = .empty
    ∧ closeDiffOp (closeDiffOp st (some i)).1 (some i)
        = ((closeDiffOp st (some i)).1, .empty)
    ∧ (st.diffSessions.lookup i = none → closeDiffOp st (some i) = (st, .empty)) := by
  refine ⟨rfl, ?_, ?_⟩
  · have h2 : (st.diffSessions.filter (fun p => p.1 != i)).filter
        (fun p => p.1 != i) = st.diffSessions.filter (fun p => p.1 != i) := by
      induction st.diffSessions with
      | nil => rfl
      | cons p l ih =>
        by_cases hp : (p.1 != i) = true
        · simp [List.filter_cons, hp, ih]
        · simp [List.filter_cons, hp, ih]
    unfold closeDiffOp
    simp only
    rw [h2]
  · intro h
    unfold closeDiffOp
    simp only
    rw [filter_of_lookup_none st.diffSessions i h]

/-- Witness for close_idempotent on a never-opened id. -/
theorem close_idempotent_witness :
    (closeDiffOp initState (some "gone")).2 = .empty
    ∧ closeDiffOp (closeDiffOp initState (some "gone")).1 (some "gone")
        = ((closeDiffOp initState (some "gone")).1, .empty)
    ∧ closeDiffOp initState (some "gone") = (initState, .empty) := by
  have h := close_idempotent initState "gone"
  exact ⟨h.1, h.2.1, h.2.2 (by decide)⟩

/-- C6: for an existing session applyEdits always replies empty, and
every single edit, however out of range its line numbers are (past the
end or negative), is applied best-effort: the effective start and delete
count are clamped into the valid index interval of the current content,
and the edit replaces exactly that clamped range by its new lines. -/
theorem out_of_range_edit_clamped (st : ServerState) (i : String)
    (s : DiffSession) (edits : List Edit)
    (h : st.diffSessions.lookup i = some s) :
    (applyEditsOp st (some i) (some edits)).2 = .empty
    ∧ ∀ (c : List ContentLine) (e : Edit), ∃ a d : Nat,
        a ≤ c.length ∧ a + d ≤ c.length
        ∧ applyOneEdit c e = c.take a ++ editLines e ++ c.drop (a + d) := by
  refine ⟨applyEditsOp_resp st (some i) (some edits), ?_⟩
  intro c e
  exact ⟨jsSpliceStart c.length (editStart e),
    jsSpliceCount c.length (jsSpliceStart c.length (editStart e))
      (editEnd e - editStart e + 1),
    jsSpliceStart_le c.length (editStart e),
    jsSpliceCount_add_le c.length _ _ (jsSpliceStart_le c.length (editStart e)),
    rfl⟩

/-- Witness for out_of_range_edit_clamped with an edit far past the end
of a three-line content. -/
theorem out_of_range_edit_clamped_witness :
    (applyEditsOp stSample (some "d1")
        (some [⟨some 10, some 20, some ['X']⟩])).2 = .empty
    ∧ ∃ a d : Nat, a ≤ 3 ∧ a + d ≤ 3
        ∧ applyOneEdit [['a'], ['b'], ['c']] ⟨some 10, some 20, some ['X']⟩
            = [['a'], ['b'], ['c']].take a
              ++ editLines ⟨some 10, some 20, some ['X']⟩
              ++ [['a'], ['b'], ['c']].drop (a + d) := by
  have h := out_of_range_edit_clamped stSample "d1"
    ⟨"/w/f", [['a'], ['b'], ['c']], "utf8"⟩
    [⟨some 10, some 20, some ['X']⟩] (by decide)
  exact ⟨h.1, h.2 [['a'], ['b'], ['c']] ⟨some 10, some 20, some ['X']⟩⟩

/-- C7: a method with no specialized case in the switch falls through to
the default branch: the dispatcher replies with the empty object through
a null-error callback and touches neither the file system nor the
state. -/
theorem unrecognized_method_empty (env : Env) (fs : FileSystem)
    (st : ServerState) (method : String) (req : Option Request)
    (h : method ∉ specializedMethods) :
    dispatch env fs st method req = (.reply .empty, fs, st) :=
  dispatch_default env fs st method req h

/-- Witness for unrecognized_method_empty on a made-up method name. -/
theorem unrecognized_method_empty_witness :
    dispatch envSample fsEmpty initState "notARealMethod" none
      = (.reply .empty, fsEmpty, initState) :=
  unrecognized_method_empty envSample fsEmpty initState "notARealMethod" none
    (by decide)

/-- C8 counterexample: with the workspace variable unset, the
workspace-path query answers /test-workspace while openDiff resolves
relative paths against the working directory, so the two roots differ;
this refutes the claim that they agree in every configuration. -/
theorem workspace_root_counterexample :
    getWorkspacePathsList ⟨none, "/home/user", 1, "host"⟩ = ["/test-workspace"]
    ∧ openWorkspaceDir ⟨none, "/home/user", 1, "host"⟩ = "/home/user"
    ∧ openFullPath ⟨none, "/home/user", 1, "host"⟩ (some "f.txt")
        = "/home/user/f.txt"
    ∧ getWorkspacePathsList ⟨none, "/home/user", 1, "host"⟩
        ≠ [openWorkspaceDir ⟨none, "/home/user", 1, "host"⟩] := by
  decide

/-- C8 amended: openDiff resolves a relative path against its workspace
directory; when the workspace variable is set and nonempty that
directory is the variable's value and equals the single element of the
workspace-path response, but when the variable is unset the response is
the fixed /test-workspace while openDiff resolves against the working
directory. -/
theorem workspace_resolution (env : Env) (p : String)
    (hp : isAbsolute p = false) :
    openFullPath env (some p) = pathJoin (openWorkspaceDir env) p
    ∧ (∀ w, env.workspaceEnv = some w → w ≠ "" →
        openWorkspaceDir env = w ∧ getWorkspacePathsList env = [w])
    ∧ (env.workspaceEnv = none →
        openWorkspaceDir env = env.cwd
        ∧ getWorkspacePathsList env = ["/test-workspace"]) := by
  refine ⟨?_, ?_, ?_⟩
  · unfold openFullPath
    by_cases hpe : p = ""
    · subst hpe
      rfl
    · have hj : jsOr (some p) "" = p := by simp [jsOr, hpe]
      rw [hj, if_neg (by simp [hp])]
  · intro w hw hne
    constructor
    · simp [openWorkspaceDir, jsOr, hw, hne]
    · simp [getWorkspacePathsList, jsOr, hw, hne]
  · intro hw
    constructor
    · simp [openWorkspaceDir, jsOr, hw]
    · simp [getWorkspacePathsList, jsOr, hw]

/-- Witness for workspace_resolution in the sample environment. -/
theorem workspace_resolution_witness :
    openFullPath envSample (some "f.txt")
        = pathJoin (openWorkspaceDir envSample) "f.txt"
    ∧ openWorkspaceDir envSample = "/w"
    ∧ getWorkspacePathsList envSample = ["/w"] := by
  have h := workspace_resolution envSample "f.txt" (by decide)
  exact ⟨h.1, (h.2.1 "/w" rfl (by decide)).1, (h.2.1 "/w" rfl (by decide)).2⟩

/-- C9: session ids are never reused. In any run of calls from the
process-start state, the ids handed out by openDiff calls are pairwise
distinct; every key of the reached session table was handed out by an
open of that run; and a key of the reached table (in particular one a
later closeDiff removes) is never handed out again by an open in any
continuation of the run. -/
theorem session_ids_never_reused (env : Env) (fs : FileSystem)
    (calls cs2 : List Call) :
    (openedIds (runCalls env calls fs initState).2.2).Nodup
    ∧ (∀ k ∈ (runCalls env calls fs initState).2.1.diffSessions.map Prod.fst,
        k ∈ openedIds (runCalls env calls fs initState).2.2)
    ∧ (∀ k ∈ (runCalls env calls fs initState).2.1.diffSessions.map Prod.fst,
        k ∉ openedIds (runCalls env cs2 (runCalls env calls fs initState).1
            (runCalls env calls fs initState).2.1).2.2) := by
  obtain ⟨hCnt, hIds, hNodup, hKeys, hGood⟩ := runCalls_inv env calls fs initState
  have hGood2 := hGood (by intro k hk; simp [initState] at hk)
  refine ⟨hNodup, ?_, ?_⟩
  · intro k hk
    rcases hKeys k hk with hk1 | hk2
    · simp [initState] at hk1
    · exact hk2
  · intro k hk hmem
    obtain ⟨c1, hpos, hle, hk1⟩ := hGood2 k hk
    obtain ⟨_, hIds2, _, _, _⟩ := runCalls_inv env cs2
      (runCalls env calls fs initState).1 (runCalls env calls fs initState).2.1
    obtain ⟨c2, hgt, _, hk2⟩ := hIds2 k hmem
    rw [hk1] at hk2
    have := mkDiffId_inj env.pid c1 c2 hk2
    omega

/-- Witness for session_ids_never_reused: after one open, the handed-out
id diff_5_1 is a table key, and a continuation containing another open
never hands diff_5_1 out again. -/
theorem session_ids_never_reused_witness :
    (openedIds (runCalls envSample
        [⟨"openDiff", some ⟨some "a.txt", none, none⟩⟩]
        fsEmpty initState).2.2).Nodup
    ∧ "diff_5_1" ∈ openedIds (runCalls envSample
        [⟨"openDiff", some ⟨some "a.txt", none, none⟩⟩]
        fsEmpty initState).2.2
    ∧ "diff_5_1" ∉ openedIds (runCalls envSample
        [⟨"openDiff", some ⟨some "b.txt", none, none⟩⟩]
        (runCalls envSample [⟨"openDiff", some ⟨some "a.txt", none, none⟩⟩]
          fsEmpty initState).1
        (runCalls envSample [⟨"openDiff", some ⟨some "a.txt", none, none⟩⟩]
          fsEmpty initState).2.1).2.2 := by
  have h := session_ids_never_reused envSample fsEmpty
    [⟨"openDiff", some ⟨some "a.txt", none, none⟩⟩]
    [⟨"openDiff", some ⟨some "b.txt", none, none⟩⟩]
  have hmem : "diff_5_1" ∈ (runCalls envSample
      [⟨"openDiff", some ⟨some "a.txt", none, none⟩⟩]
      fsEmpty initState).2.1.diffSessions.map Prod.fst := by decide
  exact ⟨h.1, h.2.1 "diff_5_1" hmem, h.2.2 "diff_5_1" hmem⟩

end HostBridge
